import Mathlib

/-!
# Verification of the dotcarv domain-service core

Shallow embedding of the byte-level codec, PDA (program-derived address)
derivation, instruction encoding, account decoding and the domain directory
client of the repository (`src/lib/domain-service.ts`, `src/lib/idl.ts` and the
token-account decoding in the NFT service).

Modelling conventions:
* JS `Buffer`/`Uint8Array` values are `List Nat` (one entry per byte).
* JS strings are Lean `String`s; `Buffer.from(s, 'utf8')` is `utf8Encode`.
* Fallible/throwing code returns `Option`/`Except`; a thrown exception that a
  source-level `catch` turns into a value is modelled by the corresponding
  `none`/`.error` branch.
* The external RPC connection is passed in explicitly (`Rpc` / a fetch
  function); the source reads it from `this.connection`.
* `Date.now() / 1000` is modelled as an `Int` number of Unix seconds; the
  statements below only ever compare it against the integral `i64` timestamps
  stored on chain.
* The program identifier `CARV_DOMAIN_PROGRAM_ID` is a process-wide
  configuration value in the source; it is threaded as an explicit
  `pid : List Nat` parameter.
-/

namespace DotCarv

set_option maxRecDepth 100000

/-! ## Byte-level utilities -/

/-- UTF-8 encoding of one Unicode scalar value (as produced by
`Buffer.from(name, 'utf8')` / `TextEncoder`). -/
def utf8Char (c : Nat) : List Nat :=
  if c < 0x80 then [c]
  else if c < 0x800 then [0xC0 + c / 64, 0x80 + c % 64]
  else if c < 0x10000 then [0xE0 + c / 4096, 0x80 + c / 64 % 64, 0x80 + c % 64]
  else [0xF0 + c / 262144, 0x80 + c / 4096 % 64, 0x80 + c / 64 % 64, 0x80 + c % 64]

/-- `Buffer.from(s, 'utf8')`: the UTF-8 bytes of a string. -/
def utf8Encode (s : String) : List Nat :=
  s.data.foldr (fun c acc => utf8Char c.toNat ++ acc) []

/-- Little-endian interpretation of a byte list as an unsigned integer. -/
def leDecode (bytes : List Nat) : Nat :=
  bytes.foldr (fun b acc => acc * 256 + b) 0

/-- `buf.writeUInt32LE(n)`: the 4 little-endian bytes of a 32-bit value. -/
def u32le (n : Nat) : List Nat :=
  [n % 256, n / 256 % 256, n / 65536 % 256, n / 16777216 % 256]

/-- Two's-complement reading of an unsigned 64-bit value, as
`DataView.getBigInt64` produces. -/
def decodeI64 (u : Nat) : Int :=
  if u < 2 ^ 63 then (u : Int) else (u : Int) - 2 ^ 64

/-! ## SHA-256 (as used by `PublicKey.createProgramAddressSync`) -/

/-- Right rotation of a 32-bit word. -/
def rotr32 (n x : Nat) : Nat :=
  (x / 2 ^ n + x % 2 ^ n * 2 ^ (32 - n)) % 2 ^ 32

def shaCh (x y z : Nat) : Nat := (x &&& y) ^^^ ((4294967295 - x % 2 ^ 32) &&& z)

def shaMaj (x y z : Nat) : Nat := (x &&& y) ^^^ (x &&& z) ^^^ (y &&& z)

def bigSigma0 (x : Nat) : Nat := rotr32 2 x ^^^ rotr32 13 x ^^^ rotr32 22 x

def bigSigma1 (x : Nat) : Nat := rotr32 6 x ^^^ rotr32 11 x ^^^ rotr32 25 x

def smallSigma0 (x : Nat) : Nat := rotr32 7 x ^^^ rotr32 18 x ^^^ x / 2 ^ 3

def smallSigma1 (x : Nat) : Nat := rotr32 17 x ^^^ rotr32 19 x ^^^ x / 2 ^ 10

def sha256K : List Nat :=
  [1116352408, 1899447441, 3049323471, 3921009573, 961987163,
   1508970993, 2453635748, 2870763221, 3624381080, 310598401,
   607225278, 1426881987, 1925078388, 2162078206, 2614888103,
   3248222580, 3835390401, 4022224774, 264347078, 604807628,
   770255983, 1249150122, 1555081692, 1996064986, 2554220882,
   2821834349, 2952996808, 3210313671, 3336571891, 3584528711,
   113926993, 338241895, 666307205, 773529912, 1294757372,
   1396182291, 1695183700, 1986661051, 2177026350, 2456956037,
   2730485921, 2820302411, 3259730800, 3345764771, 3516065817,
   3600352804, 4094571909, 275423344, 430227734, 506948616,
   659060556, 883997877, 958139571, 1322822218, 1537002063,
   1747873779, 1955562222, 2024104815, 2227730452, 2361852424,
   2428436474, 2756734187, 3204031479, 3329325298]

def sha256H0 : List Nat :=
  [1779033703, 3144134277, 1013904242, 2773480762,
   1359893119, 2600822924, 528734635, 1541459225]

/-- Group a byte list into big-endian 32-bit words. -/
def toWordsBE : List Nat → List Nat
  | b0 :: b1 :: b2 :: b3 :: rest =>
      (b0 * 16777216 + b1 * 65536 + b2 * 256 + b3) :: toWordsBE rest
  | _ => []

/-- Append the next word of the SHA-256 message schedule. -/
def scheduleStep (w : List Nat) : List Nat :=
  w ++ [(smallSigma1 (w.getD (w.length - 2) 0) + w.getD (w.length - 7) 0 +
         smallSigma0 (w.getD (w.length - 15) 0) + w.getD (w.length - 16) 0) % 2 ^ 32]

def extendW : Nat → List Nat → List Nat
  | 0, w => w
  | n + 1, w => extendW n (scheduleStep w)

/-- One round of the SHA-256 compression function on state `[a,b,c,d,e,f,g,h]`. -/
def compressStep (st : List Nat) (kw : Nat × Nat) : List Nat :=
  match st with
  | [a, b, c, d, e, f, g, h] =>
      let t1 := (h + bigSigma1 e + shaCh e f g + kw.1 + kw.2) % 2 ^ 32
      let t2 := (bigSigma0 a + shaMaj a b c) % 2 ^ 32
      [(t1 + t2) % 2 ^ 32, a, b, c, (d + t1) % 2 ^ 32, e, f, g]
  | other => other

def compressBlock (h : List Nat) (block : List Nat) : List Nat :=
  let w := extendW 48 (toWordsBE block)
  let st := (sha256K.zip w).foldl compressStep h
  (h.zip st).map (fun p => (p.1 + p.2) % 2 ^ 32)

/-- Big-endian 8-byte encoding (SHA-256 length field). -/
def be64 (n : Nat) : List Nat :=
  [n / 2 ^ 56 % 256, n / 2 ^ 48 % 256, n / 2 ^ 40 % 256, n / 2 ^ 32 % 256,
   n / 2 ^ 24 % 256, n / 2 ^ 16 % 256, n / 2 ^ 8 % 256, n % 256]

def sha256Pad (msg : List Nat) : List Nat :=
  msg ++ [0x80] ++ List.replicate ((119 - msg.length % 64) % 64) 0 ++
    be64 (8 * msg.length)

def chunk64 : Nat → List Nat → List (List Nat)
  | 0, _ => []
  | _, [] => []
  | fuel + 1, l => l.take 64 :: chunk64 fuel (l.drop 64)

/-- SHA-256 of a byte list, as a 32-byte list. -/
def sha256 (msg : List Nat) : List Nat :=
  let padded := sha256Pad msg
  let hFinal := (chunk64 padded.length padded).foldl compressBlock sha256H0
  hFinal.foldr
    (fun w acc => [w / 16777216 % 256, w / 65536 % 256, w / 256 % 256, w % 256] ++ acc) []

/-! ## Ed25519 point-decompression check (`PublicKey.isOnCurve`) -/

def ed25519P : Nat := 2 ^ 255 - 19

/-- The twisted-Edwards curve constant d = -121665/121666 mod p. -/
def ed25519D : Nat :=
  37095705934669439343138083508754565189542113879843219016388785533085940283555

/-- A square root of -1 mod p (2^((p-1)/4)). -/
def sqrtM1 : Nat :=
  19681161376707505956807079304988542015446066515923890162744021073123829784752

/-- Fuel-driven modular exponentiation (fuel bounds the bit length of `e`). -/
def powMod : Nat → Nat → Nat → Nat → Nat
  | 0, _, _, _ => 1
  | fuel + 1, b, e, m =>
      if e = 0 then 1 % m
      else
        let r := powMod fuel (b * b % m) (e / 2) m
        if e % 2 = 1 then r * b % m else r

/-- RFC 8032 point decompression succeeds: the 32-byte string is a valid
ed25519 point encoding. `findProgramAddressSync` keeps searching bumps while
this holds of the candidate hash. -/
def isOnCurve25519 (bytes : List Nat) : Bool :=
  let n := leDecode bytes
  let sign := n / 2 ^ 255
  let y := n % 2 ^ 255
  if ed25519P ≤ y then false
  else
    let p := ed25519P
    let y2 := y * y % p
    let u := (y2 + p - 1) % p
    let v := (ed25519D * y2 + 1) % p
    let v3 := v * v % p * v % p
    let v7 := v3 * v3 % p * v % p
    let xc := u * v3 % p * powMod 300 (u * v7 % p) ((p - 5) / 8) p % p
    let vxx := v * xc % p * xc % p
    if vxx = u then !(xc == 0 && sign == 1)
    else if vxx = (p - u) % p then !(xc * sqrtM1 % p == 0 && sign == 1)
    else false

/-! ## PDA derivation (`PublicKey.findProgramAddressSync` and `getDomainPDA`) -/

def pdaMarker : List Nat := utf8Encode "ProgramDerivedAddress"

/-- `PublicKey.createProgramAddressSync`: hash the seeds, the program id and
the marker; fail (`none`) if a seed exceeds 32 bytes or the hash lands on the
curve. -/
def createProgramAddress (seeds : List (List Nat)) (pid : List Nat) :
    Option (List Nat) :=
  if seeds.any (fun s => 32 < s.length) then none
  else
    let h := sha256 (seeds.foldr (· ++ ·) [] ++ pid ++ pdaMarker)
    if isOnCurve25519 h then none else some h

def findBump : List Nat → List (List Nat) → List Nat → Option (List Nat × Nat)
  | [], _, _ => none
  | b :: rest, seeds, pid =>
      match createProgramAddress (seeds ++ [[b]]) pid with
      | some h => some (h, b)
      | none => findBump rest seeds pid

/-- Bump seeds tried by `findProgramAddressSync`: 255 down to 1 (the loop
condition `while (nonce != 0)` never tries bump 0). -/
def bumpCandidates : List Nat := (List.range 255).map (fun i => 255 - i)

/-- `PublicKey.findProgramAddressSync`. An over-long seed raises a `TypeError`
that the bump loop re-throws, hence the up-front check. -/
def findProgramAddressSync (seeds : List (List Nat)) (pid : List Nat) :
    Option (List Nat × Nat) :=
  if seeds.any (fun s => 32 < s.length) then none
  else findBump bumpCandidates seeds pid

def domainSeed : List Nat := utf8Encode "domain"

/-- `getDomainPDA` from `idl.ts`: derive the domain record's address from the
seeds `[b"domain", name.as_bytes()]`. -/
def getDomainPDA (pid : List Nat) (name : String) : Option (List Nat × Nat) :=
  findProgramAddressSync [domainSeed, utf8Encode name] pid

/-! ## Instruction codec (`DomainService.create*Transaction` data payloads) -/

def registerDiscriminator : List Nat := [211, 124, 67, 15, 211, 194, 178, 240]

def renewDiscriminator : List Nat := [43, 239, 15, 46, 27, 7, 163, 73]

def transferDiscriminator : List Nat := [163, 52, 200, 231, 140, 3, 69, 186]

def setDataDiscriminator : List Nat := [223, 114, 91, 136, 197, 78, 153, 153]

/-- `register` instruction data: discriminator, 4-byte LE length, UTF-8 name. -/
def registerInstructionData (name : String) : List Nat :=
  registerDiscriminator ++ u32le (utf8Encode name).length ++ utf8Encode name

/-- `renew` instruction data: the bare discriminator. -/
def renewInstructionData : List Nat := renewDiscriminator

/-- `transfer` instruction data: discriminator then `newOwner.toBuffer()`. -/
def transferInstructionData (newOwner : List Nat) : List Nat :=
  transferDiscriminator ++ newOwner

/-- `set_data` instruction data: discriminator, 4-byte LE length, UTF-8
metadata bytes. -/
def setDataInstructionData (metadata : String) : List Nat :=
  setDataDiscriminator ++ u32le (utf8Encode metadata).length ++ utf8Encode metadata

/-! ## Transaction builders -/

structure AccountMeta where
  pubkey : List Nat
  isSigner : Bool
  isWritable : Bool
deriving DecidableEq, Repr

structure TransactionInstruction where
  keys : List AccountMeta
  programId : List Nat
  data : List Nat
deriving DecidableEq, Repr

structure Transaction where
  feePayer : List Nat
  recentBlockhash : List Nat
  instructions : List TransactionInstruction
deriving DecidableEq, Repr

/-- `SystemProgram.programId` (base58 `11111111111111111111111111111111`). -/
def systemProgramId : List Nat := List.replicate 32 0

/-- `DomainService.createRegisterTransaction`. The blockhash fetched from the
connection is passed in as `bh`; a failing PDA derivation propagates as
`none`. -/
def createRegisterTransaction (pid bh : List Nat) (name : String)
    (owner treasury : List Nat) : Option Transaction :=
  match getDomainPDA pid name with
  | none => none
  | some (domainPDA, _) =>
      some
        { feePayer := owner
          recentBlockhash := bh
          instructions :=
            [{ keys :=
                [⟨domainPDA, false, true⟩, ⟨owner, true, true⟩,
                 ⟨treasury, false, true⟩, ⟨systemProgramId, false, false⟩]
               programId := pid
               data := registerInstructionData name }] }

/-- `DomainService.createRenewTransaction`. -/
def createRenewTransaction (pid bh : List Nat) (name : String)
    (owner treasury : List Nat) : Option Transaction :=
  match getDomainPDA pid name with
  | none => none
  | some (domainPDA, _) =>
      some
        { feePayer := owner
          recentBlockhash := bh
          instructions :=
            [{ keys :=
                [⟨domainPDA, false, true⟩, ⟨owner, true, true⟩,
                 ⟨treasury, false, true⟩, ⟨systemProgramId, false, false⟩]
               programId := pid
               data := renewInstructionData }] }

/-- `DomainService.createTransferTransaction`. -/
def createTransferTransaction (pid bh : List Nat) (name : String)
    (owner newOwner : List Nat) : Option Transaction :=
  match getDomainPDA pid name with
  | none => none
  | some (domainPDA, _) =>
      some
        { feePayer := owner
          recentBlockhash := bh
          instructions :=
            [{ keys := [⟨domainPDA, false, true⟩, ⟨owner, true, false⟩]
               programId := pid
               data := transferInstructionData newOwner }] }

/-- `DomainService.createSetDataTransaction`. -/
def createSetDataTransaction (pid bh : List Nat) (name : String)
    (owner : List Nat) (metadata : String) : Option Transaction :=
  match getDomainPDA pid name with
  | none => none
  | some (domainPDA, _) =>
      some
        { feePayer := owner
          recentBlockhash := bh
          instructions :=
            [{ keys := [⟨domainPDA, false, true⟩, ⟨owner, true, false⟩]
               programId := pid
               data := setDataInstructionData metadata }] }

/-! ## Account decoding -/

/-- Result of `parseDomainAccount` (and the identical inline parser in
`getDomainInfo`). The `name`/`data` strings are kept as their raw bytes:
`TextDecoder.decode` never throws, substituting U+FFFD for invalid UTF-8. -/
structure ParsedDomain where
  owner : List Nat
  name : List Nat
  registered : Int
  expires : Int
  active : Bool
  data : List Nat
deriving DecidableEq, Repr

/-- `new DataView(buf, off, 4).getUint32(0, true)`: fails (RangeError) when
fewer than 4 bytes remain. -/
def readU32LE (data : List Nat) (off : Nat) : Option Nat :=
  if off + 4 ≤ data.length then some (leDecode ((data.drop off).take 4)) else none

/-- `new DataView(buf, off, 8).getBigInt64(0, true)`. -/
def readI64LE (data : List Nat) (off : Nat) : Option Int :=
  if off + 8 ≤ data.length then some (decodeI64 (leDecode ((data.drop off).take 8)))
  else none

/-- `DomainService.parseDomainAccount` (the same code is inlined in
`getDomainInfo`): walk the buffer with a running offset. `Buffer.slice`
clamps, so the `owner`/`name`/`metadata` reads cannot fail; the `DataView`
reads throw on a truncated buffer, which the source's `catch` turns into
`null`. The single-byte `active` read `data[offset] !== 0` yields `undefined`
out of bounds, but any buffer short enough for that also fails the following
4-byte read, so the `getD` default is unobservable. -/
def parseDomainAccount (data : List Nat) : Option ParsedDomain :=
  let owner := (data.drop 8).take 32
  match readU32LE data 40 with
  | none => none
  | some nameLen =>
    let name := (data.drop 44).take nameLen
    match readI64LE data (44 + nameLen) with
    | none => none
    | some registered =>
      match readI64LE data (52 + nameLen) with
      | none => none
      | some expires =>
        let active := data.getD (60 + nameLen) 0 != 0
        match readU32LE data (61 + nameLen) with
        | none => none
        | some dataLen =>
            some ⟨owner, name, registered, expires, active,
                  (data.drop (65 + nameLen)).take dataLen⟩

/-- Result of `NFTService.parseTokenAccount`. `uiAmount` is
`Number(amount) / Math.pow(10, decimals)`; the JS double arithmetic is
abstracted as exact rational division. -/
structure TokenAccountInfo where
  mint : List Nat
  owner : List Nat
  amount : Int
  decimals : Nat
  uiAmount : ℚ
deriving DecidableEq, Repr

def base58Alphabet : List Char :=
  "123456789ABCDEFGHJKLMNPQRSTUVWXYZabcdefghijkmnopqrstuvwxyz".data

def base58Digits : Nat → Nat → List Char
  | 0, _ => []
  | fuel + 1, n =>
      if n = 0 then []
      else base58Digits fuel (n / 58) ++ [base58Alphabet.getD (n % 58) '1']

/-- bs58 encoding of a byte list, as `PublicKey.toString` renders a key: one
`'1'` per leading zero byte, then the big-endian value written in base 58. -/
def base58Encode (bytes : List Nat) : List Char :=
  List.replicate (bytes.takeWhile (fun b => b == 0)).length '1' ++
    base58Digits (8 * bytes.length) (bytes.foldl (fun acc b => acc * 256 + b) 0)

/-- `NFTService.isValidPublicKey`, applied to a rendered base58 address: the
string must be exactly 44 characters, drawn from the base58 alphabet, and use
more than one distinct character (`uniqueChars <= 1` rejects). The source's
final `new PublicKey(address)` re-parse cannot throw on the rendering of a
32-byte key — it decodes back to those same 32 bytes — so on the
`parseTokenAccount` path it adds no further constraint. -/
def isValidPublicKey (address : List Char) : Bool :=
  if address.length ≠ 44 then false
  else if !address.all (fun c => base58Alphabet.contains c) then false
  else if address.all (fun c => c == address.headD '1') then false
  else true

/-- `NFTService.parseTokenAccount`. After each all-zero guard the source
builds a `PublicKey` from the 32-byte slice (which never throws for 32
bytes), renders it in base58, and re-validates that rendering with
`isValidPublicKey`, returning `null` when it fails. -/
def parseTokenAccount (data : List Nat) : Option TokenAccountInfo :=
  if data.length < 80 then none
  else
    let mintBytes := data.take 32
    if mintBytes.all (fun b => b == 0) then none
    else if !isValidPublicKey (base58Encode mintBytes) then none
    else
      let ownerBytes := (data.drop 32).take 32
      if ownerBytes.all (fun b => b == 0) then none
      else if !isValidPublicKey (base58Encode ownerBytes) then none
      else
        let amount := decodeI64 (leDecode ((data.drop 64).take 8))
        let decimals := data.getD 72 0
        some ⟨mintBytes, ownerBytes, amount, decimals, (amount : ℚ) / 10 ^ decimals⟩

/-! ## Domain directory client -/

/-- `name.replace(/\.carv$/, '')`: the regex is anchored at the end and
replaces (at most) one occurrence. -/
def stripCarv (s : String) : String :=
  if 5 ≤ s.data.length ∧ s.data.drop (s.data.length - 5) = ['.', 'c', 'a', 'r', 'v']
  then String.mk (s.data.take (s.data.length - 5))
  else s

/-- The RPC calls `checkDomainAvailability` performs, with `.error` for a
thrown/failed call. `getSlot` is the connection test run before the fetch. -/
structure Rpc where
  getSlot : Except Unit Nat
  getAccountInfo : List Nat → Except Unit (Option (List Nat))

/-- `DomainService.checkDomainAvailability`: normalize, derive, test the
connection, fetch; any account (whatever its contents or owner program) means
taken, and every thrown error is caught and mapped to `false`. -/
def checkDomainAvailability (rpc : Rpc) (pid : List Nat) (name : String) : Bool :=
  match getDomainPDA pid (stripCarv name) with
  | none => false
  | some (domainPDA, _) =>
      match rpc.getSlot with
      | .error _ => false
      | .ok _ =>
          match rpc.getAccountInfo domainPDA with
          | .error _ => false
          | .ok (some _) => false
          | .ok none => true

/-- Result of `getDomainInfo`. `owner` is `none` on the degraded
(parse-failure) path, where the source stores `null`; `parseError` models the
attached parse-error indicator. -/
structure DomainInfo where
  owner : Option (List Nat)
  name : List Nat
  registered : Int
  expires : Int
  active : Bool
  data : List Nat
  «exists» : Bool
  parseError : Bool
deriving DecidableEq, Repr

/-- `DomainService.getDomainInfo`: derive the PDA, fetch, parse. A missing
account or a thrown RPC/derivation error returns `null`; a parse failure
returns the degraded record with the requested name, `registeredAt = now`,
`expiresAt = now + 31536000`, `active = true` and empty metadata. -/
def getDomainInfo (fetch : List Nat → Except Unit (Option (List Nat)))
    (pid : List Nat) (now : Int) (name : String) : Option DomainInfo :=
  match getDomainPDA pid name with
  | none => none
  | some (domainPDA, _) =>
      match fetch domainPDA with
      | .error _ => none
      | .ok none => none
      | .ok (some data) =>
          match parseDomainAccount data with
          | some p =>
              some ⟨some p.owner, p.name, p.registered, p.expires, p.active,
                    p.data, true, false⟩
          | none =>
              some ⟨none, utf8Encode name, now, now + 31536000, true, [], true, true⟩

/-- `DomainService.resolveDomain`: normalize, look up, and return the owner
unless the record is missing, inactive, or has `expires < now`. On the
degraded record the source's success log dereferences the `null` owner and the
resulting exception is caught, returning `null` — modelled by the `none`
owner flowing through. -/
def resolveDomain (fetch : List Nat → Except Unit (Option (List Nat)))
    (pid : List Nat) (now : Int) (domain : String) : Option (List Nat) :=
  let normalizedName := stripCarv domain
  match getDomainInfo fetch pid now normalizedName with
  | none => none
  | some info =>
      if !info.«exists» then none
      else if !info.active then none
      else if info.expires < now then none
      else info.owner

/-! ## Shared concrete inputs for witnesses

`pidEx` is an arbitrary well-formed 32-byte program identifier; `pdaAEx` and
`pdaCEx` are the addresses `getDomainPDA` derives from it for the names `"a"`
and `"a.carv"` (checked below by kernel evaluation of the full
SHA-256 / bump-search pipeline). -/

def pidEx : List Nat := (List.range 32).map (· + 1)

def pdaAEx : List Nat :=
  [210, 79, 142, 77, 179, 246, 118, 167, 209, 36, 44, 192, 132, 56, 145, 205,
   248, 135, 127, 136, 63, 231, 147, 155, 126, 65, 207, 68, 80, 157, 19, 10]

def pdaCEx : List Nat :=
  [20, 101, 152, 155, 127, 39, 212, 173, 52, 104, 22, 181, 245, 94, 96, 106,
   37, 190, 49, 114, 26, 79, 61, 42, 158, 60, 126, 252, 194, 242, 226, 232]

theorem pdaEx_a : getDomainPDA pidEx "a" = some (pdaAEx, 255) := by decide

theorem pdaEx_acarv : getDomainPDA pidEx "a.carv" = some (pdaCEx, 253) := by decide

/-! ## C1 -/

/-- C1: `getDomainPDA` derives the program address from exactly the two seeds
`["domain", utf8(name)]` — the raw UTF-8 bytes of the name, with no
normalization applied at this layer — and the derivation is deterministic:
two calls with the same name and program identifier yield the same
`(address, bump)` pair. -/
theorem getDomainPDA_exact_seeds_deterministic (pid : List Nat) (name : String) :
    getDomainPDA pid name =
      findProgramAddressSync [utf8Encode "domain", utf8Encode name] pid ∧
    ∀ name2 : String, name2 = name → getDomainPDA pid name2 = getDomainPDA pid name :=
  ⟨rfl, fun _ h => by rw [h]⟩

/-- Witness for C1 at the concrete program id `pidEx` and name `"alice"`. -/
theorem getDomainPDA_exact_seeds_deterministic_witness :
    getDomainPDA pidEx "alice" =
      findProgramAddressSync [utf8Encode "domain", utf8Encode "alice"] pidEx ∧
    getDomainPDA pidEx "alice" = getDomainPDA pidEx "alice" :=
  ⟨(getDomainPDA_exact_seeds_deterministic pidEx "alice").1,
   (getDomainPDA_exact_seeds_deterministic pidEx "alice").2 "alice" rfl⟩

/-! ## C2 -/

/-- C2 counterexample: the claimed `set_data` discriminator `df725b88c59e9999`
has sixth byte `0x9e` (158), but the code emits `78` (`0x4e`). At the empty
metadata string the instruction data is not the claimed byte sequence. -/
theorem setData_claimed_discriminator_refuted :
    setDataInstructionData "" ≠
      [0xdf, 0x72, 0x5b, 0x88, 0xc5, 0x9e, 0x99, 0x99, 0, 0, 0, 0] := by decide

/-- C2 (amended): for every metadata string, the `set_data` instruction data
is the 8-byte discriminator `df725b88c54e9999`, then a 4-byte little-endian
length equal to the byte length of the UTF-8 metadata, then those bytes. -/
theorem setDataInstructionData_wire_format (metadata : String) :
    setDataInstructionData metadata =
      [0xdf, 0x72, 0x5b, 0x88, 0xc5, 0x4e, 0x99, 0x99] ++
        u32le (utf8Encode metadata).length ++ utf8Encode metadata := rfl

/-! ## C3 -/

/-- C3: `register` data is `d37c430fd3c2b2f0` plus a 4-byte LE length plus the
UTF-8 name bytes; `renew` data is exactly `2bef0f2e1b07a349`; `transfer` data
is `a334c8e78c0345ba` plus the 32 bytes of the new owner (40 bytes total). -/
theorem instructionData_wire_format (name : String) (newOwner : List Nat)
    (h : newOwner.length = 32) :
    registerInstructionData name =
      [0xd3, 0x7c, 0x43, 0x0f, 0xd3, 0xc2, 0xb2, 0xf0] ++
        u32le (utf8Encode name).length ++ utf8Encode name ∧
    renewInstructionData = [0x2b, 0xef, 0x0f, 0x2e, 0x1b, 0x07, 0xa3, 0x49] ∧
    transferInstructionData newOwner =
      [0xa3, 0x34, 0xc8, 0xe7, 0x8c, 0x03, 0x45, 0xba] ++ newOwner ∧
    (transferInstructionData newOwner).length = 40 := by
  refine ⟨rfl, rfl, rfl, ?_⟩
  simp [transferInstructionData, transferDiscriminator, h]

/-- Witness for C3 at name `"alice"` and a concrete 32-byte new owner. -/
theorem instructionData_wire_format_witness :
    registerInstructionData "alice" =
      [0xd3, 0x7c, 0x43, 0x0f, 0xd3, 0xc2, 0xb2, 0xf0] ++
        u32le (utf8Encode "alice").length ++ utf8Encode "alice" ∧
    renewInstructionData = [0x2b, 0xef, 0x0f, 0x2e, 0x1b, 0x07, 0xa3, 0x49] ∧
    transferInstructionData (List.replicate 32 7) =
      [0xa3, 0x34, 0xc8, 0xe7, 0x8c, 0x03, 0x45, 0xba] ++ List.replicate 32 7 ∧
    (transferInstructionData (List.replicate 32 7)).length = 40 :=
  instructionData_wire_format "alice" (List.replicate 32 7) (by decide)

/-! ## C4 -/

theorem leDecode_u32le (n : Nat) (h : n < 2 ^ 32) : leDecode (u32le n) = n := by
  simp [leDecode, u32le]
  omega

theorem getD_of_drop {l t : List Nat} {n a : Nat} (h : l.drop n = a :: t) :
    l.getD n 0 = a := by
  induction n generalizing l with
  | zero => simp at h; rw [h]; rfl
  | succ k ih =>
    cases l with
    | nil => simp at h
    | cons x xs => exact ih (by simpa using h)

/-- C4: a synthetic domain-account buffer laid out as 8 discriminant bytes,
32 owner bytes, a 4-byte LE name length `N`, `N` name bytes, an 8-byte LE
signed `registeredAt`, an 8-byte LE signed `expiresAt`, one `active` byte
(nonzero = true), a 4-byte LE metadata length `M` and `M` metadata bytes
decodes at exactly those running offsets into a record whose name is the `N`
name bytes and whose metadata is the `M` metadata bytes (for `N ≤ 32`,
`M ≤ 128`). -/
theorem parseDomainAccount_layout
    (disc owner nm reg exp md : List Nat) (act : Nat)
    (hdisc : disc.length = 8) (howner : owner.length = 32)
    (hnm : nm.length ≤ 32) (hreg : reg.length = 8) (hexp : exp.length = 8)
    (hmd : md.length ≤ 128) :
    parseDomainAccount
        (disc ++ owner ++ u32le nm.length ++ nm ++ reg ++ exp ++ [act] ++
          u32le md.length ++ md) =
      some ⟨owner, nm, decodeI64 (leDecode reg), decodeI64 (leDecode exp),
            act != 0, md⟩ := by
  set N := nm.length with hN
  set B := disc ++ owner ++ u32le N ++ nm ++ reg ++ exp ++ [act] ++
      u32le md.length ++ md with hB
  have hu4 : (u32le N).length = 4 := rfl
  have hu4' : (u32le md.length).length = 4 := rfl
  have hlen : B.length = 65 + N + md.length := by
    simp [hB, hdisc, howner, hreg, hexp, hu4, hu4', hN]
    omega
  have h8 : B.drop 8 = owner ++ (u32le N ++ (nm ++ (reg ++ (exp ++ ([act] ++
      (u32le md.length ++ md)))))) := by
    rw [hB]
    simp only [List.append_assoc]
    exact List.drop_left' hdisc
  have h40 : B.drop 40 = u32le N ++ (nm ++ (reg ++ (exp ++ ([act] ++
      (u32le md.length ++ md))))) := by
    rw [show (40 : Nat) = 8 + 32 from rfl, ← List.drop_drop, h8]
    exact List.drop_left' howner
  have h44 : B.drop 44 = nm ++ (reg ++ (exp ++ ([act] ++
      (u32le md.length ++ md)))) := by
    rw [show (44 : Nat) = 40 + 4 from rfl, ← List.drop_drop, h40]
    exact List.drop_left' hu4
  have h44N : B.drop (44 + N) = reg ++ (exp ++ ([act] ++
      (u32le md.length ++ md))) := by
    rw [← List.drop_drop, h44]
    exact List.drop_left' rfl
  have h52N : B.drop (52 + N) = exp ++ ([act] ++ (u32le md.length ++ md)) := by
    rw [show 52 + N = (44 + N) + 8 by omega, ← List.drop_drop, h44N]
    exact List.drop_left' hreg
  have h60N : B.drop (60 + N) = act :: (u32le md.length ++ md) := by
    rw [show 60 + N = (52 + N) + 8 by omega, ← List.drop_drop, h52N]
    exact List.drop_left' hexp
  have h61N : B.drop (61 + N) = u32le md.length ++ md := by
    rw [show 61 + N = (60 + N) + 1 by omega, ← List.drop_drop, h60N]
    rfl
  have h65N : B.drop (65 + N) = md := by
    rw [show 65 + N = (61 + N) + 4 by omega, ← List.drop_drop, h61N]
    exact List.drop_left' hu4'
  have hr1 : readU32LE B 40 = some N := by
    simp only [readU32LE]
    rw [if_pos (by omega), h40, List.take_left' hu4, leDecode_u32le N (by omega)]
  have hr2 : readI64LE B (44 + N) = some (decodeI64 (leDecode reg)) := by
    simp only [readI64LE]
    rw [if_pos (by omega), h44N, List.take_left' hreg]
  have hr3 : readI64LE B (52 + N) = some (decodeI64 (leDecode exp)) := by
    simp only [readI64LE]
    rw [if_pos (by omega), h52N, List.take_left' hexp]
  have hr4 : readU32LE B (61 + N) = some md.length := by
    simp only [readU32LE]
    rw [if_pos (by omega), h61N, List.take_left' hu4',
        leDecode_u32le md.length (by omega)]
  have howner' : (B.drop 8).take 32 = owner := by
    rw [h8]; exact List.take_left' howner
  have hname : (B.drop 44).take N = nm := by
    rw [h44]; exact List.take_left' rfl
  have hmeta : (B.drop (65 + N)).take md.length = md := by
    rw [h65N]; exact List.take_length md
  have hact : B.getD (60 + N) 0 = act := getD_of_drop h60N
  simp only [parseDomainAccount, hr1, hr2, hr3, hr4, howner', hname, hmeta, hact]

/-- Witness for C4 at a concrete buffer with `N = 2`, `M = 1`. -/
theorem parseDomainAccount_layout_witness :
    parseDomainAccount
        (List.replicate 8 0 ++ List.replicate 32 7 ++ u32le 2 ++ [97, 98] ++
          [1, 0, 0, 0, 0, 0, 0, 0] ++ [2, 0, 0, 0, 0, 0, 0, 0] ++ [1] ++
          u32le 1 ++ [99]) =
      some ⟨List.replicate 32 7, [97, 98],
            decodeI64 (leDecode [1, 0, 0, 0, 0, 0, 0, 0]),
            decodeI64 (leDecode [2, 0, 0, 0, 0, 0, 0, 0]), 1 != 0, [99]⟩ :=
  parseDomainAccount_layout (List.replicate 8 0) (List.replicate 32 7) [97, 98]
    [1, 0, 0, 0, 0, 0, 0, 0] [2, 0, 0, 0, 0, 0, 0, 0] [99] 1
    (by decide) (by decide) (by decide) (by decide) (by decide) (by decide)

/-! ## C5 -/

/-- A 66-byte domain account for the name `"a"`: owner `7^32`, registered 0,
expires 1000, active, empty metadata. -/
def bufEx : List Nat :=
  List.replicate 8 0 ++ List.replicate 32 7 ++ u32le 1 ++ [97] ++
    List.replicate 8 0 ++ [232, 3, 0, 0, 0, 0, 0, 0] ++ [1] ++ u32le 0

/-- C5 counterexample: at `now = 1000` and a record whose `expiresAt` is
exactly 1000 (active, well-formed owner), `resolveDomain` returns the owner —
the claim requires absent whenever `expiresAt` is not strictly greater than
the current time. -/
theorem resolveDomain_strict_expiry_refuted :
    (parseDomainAccount bufEx).map (fun p => p.expires) = some 1000 ∧
    resolveDomain (fun _ => Except.ok (some bufEx)) pidEx 1000 "a" =
      some (List.replicate 32 7) := by
  constructor
  · decide
  · decide

/-- C5 (amended): `resolveDomain(name)` returns an owner identity exactly when
the looked-up record (after stripping one `.carv` suffix) exists, its `active`
flag is true, its `expiresAt` is greater than **or equal to** the current time
(only `expiresAt < now` is treated as expired — at `expiresAt = now` the
domain still resolves), and the record carries an owner. -/
theorem resolveDomain_owner_conditions
    (fetch : List Nat → Except Unit (Option (List Nat))) (pid : List Nat)
    (now : Int) (domain : String) (o : List Nat) :
    resolveDomain fetch pid now domain = some o ↔
      ∃ info, getDomainInfo fetch pid now (stripCarv domain) = some info ∧
        info.«exists» = true ∧ info.active = true ∧ now ≤ info.expires ∧
        info.owner = some o := by
  unfold resolveDomain
  cases hI : getDomainInfo fetch pid now (stripCarv domain) with
  | none => simp [hI]
  | some info =>
    simp only [hI]
    constructor
    · intro h
      cases hev : info.«exists» with
      | false => simp [hev] at h
      | true =>
        cases hav : info.active with
        | false => simp [hev, hav] at h
        | true =>
          by_cases hx : info.expires < now
          · simp [hev, hav, hx] at h
          · exact ⟨info, rfl, hev, hav, Int.not_lt.mp hx, by
              simpa [hev, hav, hx] using h⟩
    · rintro ⟨info', hinfo', he, ha, hx, ho⟩
      obtain rfl : info = info' := Option.some.inj hinfo'
      simp [he, ha, ho, Int.not_lt.mpr hx]

/-! ## C6 -/

/-- C6: `checkDomainAvailability` returns `true` exactly when the PDA
derivation succeeds, the preceding connection test (`getSlot`) does not throw,
and the account fetch at the derived PDA returns absent; any returned buffer
(regardless of content or owning program) and any thrown RPC step yield
`false`. -/
theorem checkDomainAvailability_true_iff (rpc : Rpc) (pid : List Nat)
    (name : String) :
    checkDomainAvailability rpc pid name = true ↔
      ∃ pda bump, getDomainPDA pid (stripCarv name) = some (pda, bump) ∧
        (∃ s, rpc.getSlot = .ok s) ∧ rpc.getAccountInfo pda = .ok none := by
  unfold checkDomainAvailability
  cases hd : getDomainPDA pid (stripCarv name) with
  | none => simp
  | some pb =>
    obtain ⟨pda, bump⟩ := pb
    cases hs : rpc.getSlot with
    | error e => simp [hs]
    | ok s =>
      cases hf : rpc.getAccountInfo pda with
      | error e => simp [hs, hf]
      | ok r =>
        cases r with
        | none => simp [hs, hf]
        | some buf => simp [hs, hf]

/-! ## C7 -/

/-- C7: `parseTokenAccount` rejects every buffer shorter than 80 bytes and
every buffer whose 32-byte mint (bytes 0–32) or owner (bytes 32–64) field is
all zero (it is a total function, so it never throws); for accepted buffers
it reads mint from bytes 0–32, owner from bytes 32–64, amount as a signed
64-bit little-endian integer from bytes 64–72, decimals from byte 72, and
derives `uiAmount = amount / 10^decimals`. -/
theorem parseTokenAccount_guards_and_fields (data : List Nat) :
    (data.length < 80 → parseTokenAccount data = none) ∧
    ((data.take 32).all (fun b => b == 0) = true → parseTokenAccount data = none) ∧
    (((data.drop 32).take 32).all (fun b => b == 0) = true →
      parseTokenAccount data = none) ∧
    ∀ rec, parseTokenAccount data = some rec →
      rec.mint = data.take 32 ∧ rec.owner = (data.drop 32).take 32 ∧
      rec.amount = decodeI64 (leDecode ((data.drop 64).take 8)) ∧
      rec.decimals = data.getD 72 0 ∧
      rec.uiAmount = (rec.amount : ℚ) / 10 ^ rec.decimals := by
  refine ⟨fun h => by simp [parseTokenAccount, h], ?_, ?_, ?_⟩
  · intro h
    unfold parseTokenAccount
    by_cases h80 : data.length < 80
    · simp [h80]
    · simp [h80, h]
  · intro h
    unfold parseTokenAccount
    by_cases h80 : data.length < 80
    · simp [h80]
    · cases hm : (data.take 32).all (fun b => b == 0) with
      | true => simp [h80, hm]
      | false =>
        cases hmv : isValidPublicKey (base58Encode (data.take 32)) with
        | false => simp [h80, hm, hmv]
        | true => simp [h80, hm, hmv, h]
  · intro rec h
    unfold parseTokenAccount at h
    by_cases h80 : data.length < 80
    · simp [h80] at h
    · cases hm : (data.take 32).all (fun b => b == 0) with
      | true => simp [h80, hm] at h
      | false =>
        cases hmv : isValidPublicKey (base58Encode (data.take 32)) with
        | false => simp [h80, hm, hmv] at h
        | true =>
          cases ho : ((data.drop 32).take 32).all (fun b => b == 0) with
          | true => simp [h80, hm, hmv, ho] at h
          | false =>
            cases hov : isValidPublicKey (base58Encode ((data.drop 32).take 32)) with
            | false => simp [h80, hm, hmv, ho, hov] at h
            | true =>
              simp [h80, hm, hmv, ho, hov] at h
              obtain rfl : rec = _ := h.symm
              refine ⟨rfl, rfl, rfl, ?_, rfl⟩
              simp [List.getD]

/-- An 80-byte token account the source accepts: mint `15^32` and owner
`199^32` both base58-encode to 44-character strings with more than one
distinct character, amount 5, decimals 2. -/
def tokenBufEx : List Nat :=
  List.replicate 32 15 ++ List.replicate 32 199 ++ [5, 0, 0, 0, 0, 0, 0, 0] ++
    [2] ++ List.replicate 7 0

/-- The record `parseTokenAccount` produces for `tokenBufEx`, with each field
written as the read the parser performs (mint 15^32, owner 199^32, amount 5,
decimals 2). -/
def tokenRecEx : TokenAccountInfo :=
  ⟨tokenBufEx.take 32, (tokenBufEx.drop 32).take 32,
   decodeI64 (leDecode ((tokenBufEx.drop 64).take 8)), tokenBufEx.getD 72 0,
   (decodeI64 (leDecode ((tokenBufEx.drop 64).take 8)) : ℚ) /
     10 ^ tokenBufEx.getD 72 0⟩

/-- Witness for C7: a short buffer, an all-zero-mint buffer, an
all-zero-owner buffer, a buffer whose mint base58-encodes to only 43
characters (rejected by the re-validation), and an accepted buffer with its
decoded fields. -/
theorem parseTokenAccount_guards_witness :
    parseTokenAccount (List.replicate 79 1) = none ∧
    parseTokenAccount (List.replicate 32 0 ++ List.replicate 48 1) = none ∧
    parseTokenAccount (List.replicate 32 15 ++ List.replicate 32 0 ++
      List.replicate 16 1) = none ∧
    parseTokenAccount (List.replicate 80 1) = none ∧
    (tokenRecEx.mint = tokenBufEx.take 32 ∧
      tokenRecEx.owner = (tokenBufEx.drop 32).take 32 ∧
      tokenRecEx.amount = decodeI64 (leDecode ((tokenBufEx.drop 64).take 8)) ∧
      tokenRecEx.decimals = tokenBufEx.getD 72 0 ∧
      tokenRecEx.uiAmount = (tokenRecEx.amount : ℚ) / 10 ^ tokenRecEx.decimals) :=
  ⟨(parseTokenAccount_guards_and_fields (List.replicate 79 1)).1 (by decide),
   (parseTokenAccount_guards_and_fields (List.replicate 32 0 ++
      List.replicate 48 1)).2.1 (by decide),
   (parseTokenAccount_guards_and_fields (List.replicate 32 15 ++
      List.replicate 32 0 ++ List.replicate 16 1)).2.2.1 (by decide),
   by decide,
   (parseTokenAccount_guards_and_fields tokenBufEx).2.2.2 tokenRecEx rfl⟩

/-! ## C8 -/

/-- C8: each built transaction lists its account references in the source
order with the source role flags — register and renew use
`[domainPDA (writable), owner (signer, writable), treasury (writable),
systemProgram (read-only)]`; transfer and set_data use
`[domainPDA (writable), owner (signer, read-only)]`. -/
theorem transaction_account_roles (pid bh : List Nat) (name : String)
    (owner treasury newOwner : List Nat) (metadata : String) (pda : List Nat)
    (bump : Nat) (hpda : getDomainPDA pid name = some (pda, bump)) :
    (createRegisterTransaction pid bh name owner treasury).map
        (fun tx => tx.instructions.map (fun i => i.keys)) =
      some [[⟨pda, false, true⟩, ⟨owner, true, true⟩, ⟨treasury, false, true⟩,
             ⟨systemProgramId, false, false⟩]] ∧
    (createRenewTransaction pid bh name owner treasury).map
        (fun tx => tx.instructions.map (fun i => i.keys)) =
      some [[⟨pda, false, true⟩, ⟨owner, true, true⟩, ⟨treasury, false, true⟩,
             ⟨systemProgramId, false, false⟩]] ∧
    (createTransferTransaction pid bh name owner newOwner).map
        (fun tx => tx.instructions.map (fun i => i.keys)) =
      some [[⟨pda, false, true⟩, ⟨owner, true, false⟩]] ∧
    (createSetDataTransaction pid bh name owner metadata).map
        (fun tx => tx.instructions.map (fun i => i.keys)) =
      some [[⟨pda, false, true⟩, ⟨owner, true, false⟩]] := by
  unfold createRegisterTransaction createRenewTransaction
    createTransferTransaction createSetDataTransaction
  rw [hpda]
  exact ⟨rfl, rfl, rfl, rfl⟩

/-- Witness for C8 at the concrete derivation `pidEx`/`"a"`. -/
theorem transaction_account_roles_witness :
    (createRegisterTransaction pidEx [9] "a" (List.replicate 32 5)
        (List.replicate 32 6)).map
        (fun tx => tx.instructions.map (fun i => i.keys)) =
      some [[⟨pdaAEx, false, true⟩, ⟨List.replicate 32 5, true, true⟩,
             ⟨List.replicate 32 6, false, true⟩,
             ⟨systemProgramId, false, false⟩]] ∧
    (createRenewTransaction pidEx [9] "a" (List.replicate 32 5)
        (List.replicate 32 6)).map
        (fun tx => tx.instructions.map (fun i => i.keys)) =
      some [[⟨pdaAEx, false, true⟩, ⟨List.replicate 32 5, true, true⟩,
             ⟨List.replicate 32 6, false, true⟩,
             ⟨systemProgramId, false, false⟩]] ∧
    (createTransferTransaction pidEx [9] "a" (List.replicate 32 5)
        (List.replicate 32 7)).map
        (fun tx => tx.instructions.map (fun i => i.keys)) =
      some [[⟨pdaAEx, false, true⟩, ⟨List.replicate 32 5, true, false⟩]] ∧
    (createSetDataTransaction pidEx [9] "a" (List.replicate 32 5) "bio").map
        (fun tx => tx.instructions.map (fun i => i.keys)) =
      some [[⟨pdaAEx, false, true⟩, ⟨List.replicate 32 5, true, false⟩]] :=
  transaction_account_roles pidEx [9] "a" (List.replicate 32 5)
    (List.replicate 32 6) (List.replicate 32 7) "bio" pdaAEx 255 pdaEx_a

/-! ## C9 -/

/-- C9: when the PDA derivation succeeds, `getDomainInfo` returns absent
exactly when the (non-throwing) account fetch at the derived PDA returns
absent; and when the account exists but its bytes fail to parse, it returns
the degraded record — requested name, `registeredAt = now`,
`expiresAt = now + 31536000` (one year later), `active = true` — carrying the
parse-error indicator, instead of propagating an error. -/
theorem getDomainInfo_absent_and_degraded
    (fetch : List Nat → Except Unit (Option (List Nat))) (pid : List Nat)
    (now : Int) (name : String) (pda : List Nat) (bump : Nat)
    (hpda : getDomainPDA pid name = some (pda, bump)) :
    (∀ r, fetch pda = Except.ok r →
      (getDomainInfo fetch pid now name = none ↔ r = none)) ∧
    (∀ buf, fetch pda = Except.ok (some buf) → parseDomainAccount buf = none →
      getDomainInfo fetch pid now name =
        some ⟨none, utf8Encode name, now, now + 31536000, true, [], true, true⟩) := by
  unfold getDomainInfo
  simp only [hpda]
  constructor
  · intro r hr
    rw [hr]
    cases r with
    | none => simp
    | some data =>
      cases hp : parseDomainAccount data with
      | none => simp [hp]
      | some p => simp [hp]
  · intro buf hb hp
    simp only [hb, hp]

/-- Witness for C9: fetch always returns the 1-byte buffer `[0]`, which fails
to parse, so `getDomainInfo` yields the degraded record. -/
theorem getDomainInfo_absent_and_degraded_witness :
    (getDomainInfo (fun _ => Except.ok (some [0])) pidEx 5 "a" = none ↔
      (some [0] : Option (List Nat)) = none) ∧
    getDomainInfo (fun _ => Except.ok (some [0])) pidEx 5 "a" =
      some ⟨none, utf8Encode "a", 5, 5 + 31536000, true, [], true, true⟩ :=
  ⟨(getDomainInfo_absent_and_degraded (fun _ => Except.ok (some [0])) pidEx 5 "a"
      pdaAEx 255 pdaEx_a).1 (some [0]) rfl,
   (getDomainInfo_absent_and_degraded (fun _ => Except.ok (some [0])) pidEx 5 "a"
      pdaAEx 255 pdaEx_a).2 [0] rfl (by decide)⟩

/-! ## C10 -/

/-- C10: `checkDomainAvailability` (like `resolveDomain`) strips one trailing
`.carv` suffix before deriving the PDA, while `createRegisterTransaction`
derives from the name unchanged; so for a name ending in `.carv` whose
stripped form derives a different address, the availability check consults a
different account than the one the register transaction writes: with an RPC
on which only the register-side PDA has an account, the check still reports
the name available. -/
theorem carv_suffix_pda_mismatch (pid bh : List Nat) (name : String)
    (owner treasury pdaAvail pdaReg : List Nat) (bumpA bumpR : Nat)
    (_hsuffix : 5 ≤ name.data.length ∧
      name.data.drop (name.data.length - 5) = ['.', 'c', 'a', 'r', 'v'])
    (hA : getDomainPDA pid (stripCarv name) = some (pdaAvail, bumpA))
    (hR : getDomainPDA pid name = some (pdaReg, bumpR))
    (hdiff : pdaAvail ≠ pdaReg) :
    checkDomainAvailability
        ⟨Except.ok 0, fun a => Except.ok (if a = pdaReg then some [1] else none)⟩
        pid name = true ∧
    (createRegisterTransaction pid bh name owner treasury).map
        (fun tx => tx.instructions.map (fun i => i.keys.map (fun k => k.pubkey))) =
      some [[pdaReg, owner, treasury, systemProgramId]] := by
  constructor
  · unfold checkDomainAvailability
    rw [hA]
    simp [hdiff]
  · unfold createRegisterTransaction
    rw [hR]
    rfl

/-- Witness for C10 at `"a.carv"`: the stripped name `"a"` derives `pdaAEx`,
the unstripped name derives `pdaCEx`, and the two differ. -/
theorem carv_suffix_pda_mismatch_witness :
    checkDomainAvailability
        ⟨Except.ok 0, fun a => Except.ok (if a = pdaCEx then some [1] else none)⟩
        pidEx "a.carv" = true ∧
    (createRegisterTransaction pidEx [9] "a.carv" (List.replicate 32 5)
        (List.replicate 32 6)).map
        (fun tx => tx.instructions.map (fun i => i.keys.map (fun k => k.pubkey))) =
      some [[pdaCEx, List.replicate 32 5, List.replicate 32 6, systemProgramId]] :=
  carv_suffix_pda_mismatch pidEx [9] "a.carv" (List.replicate 32 5)
    (List.replicate 32 6) pdaAEx pdaCEx 255 253 (by decide)
    (by rw [show stripCarv "a.carv" = "a" by decide]; exact pdaEx_a)
    pdaEx_acarv (by decide)

end DotCarv
